import Mathlib

/-!
# Verification of the wave scheduler of universal-infinite-loop-mcp-server

Shallow embedding of `src/orchestration/waveManager.ts` (the wave scheduler,
assignment planner and resource ledger) together with theorems settling the
specification claims about it.

Modelling conventions:
* JavaScript `Map<string, number>` is modelled as an insertion-ordered
  association list `List (String × Int)`; `Map.set` overwrites the first
  binding in place, `Map.delete` removes it, `Map.get` reads it.
* JavaScript `Set<string>` is modelled as an insertion-ordered duplicate-free
  `List String`; `Set.add` appends when the element is new.
* JavaScript numbers that the source only ever adds/subtracts/compares are
  modelled as `Int`; values produced by division (`utilizationPercentage`)
  are modelled as `ℚ`.  `Math.round` is `jsRound` (round half toward +∞).
* `crypto.randomUUID()` and the active-wave counter are nondeterministic
  inputs; functions that consume them take them as explicit parameters.
* Wall-clock `Date` values carry no claim-relevant information; timestamp
  fields are modelled as `Option Unit` (stamped/not stamped) and elapsed
  times as the constant 0.
-/

namespace WaveManagerModel

/-- JS `Map.set`: overwrite the first binding of `k` in place, else append. -/
def mapSet (m : List (String × Int)) (k : String) (v : Int) : List (String × Int) :=
  match m with
  | [] => [(k, v)]
  | (k₀, v₀) :: rest => if k₀ = k then (k, v) :: rest else (k₀, v₀) :: mapSet rest k v

/-- JS `Map.get`: value of the first binding of `k`, if any. -/
def mapGet (m : List (String × Int)) (k : String) : Option Int :=
  match m with
  | [] => none
  | (k₀, v₀) :: rest => if k₀ = k then some v₀ else mapGet rest k

/-- JS `Map.delete`: remove the first binding of `k`, if any. -/
def mapDelete (m : List (String × Int)) (k : String) : List (String × Int) :=
  match m with
  | [] => []
  | (k₀, v₀) :: rest => if k₀ = k then rest else (k₀, v₀) :: mapDelete rest k

/-- JS `Set.add`: append `x` unless already present. -/
def setAdd (s : List String) (x : String) : List String :=
  if x ∈ s then s else s ++ [x]

/-- JS `Math.round`: round half toward positive infinity. -/
def jsRound (q : ℚ) : Int := ⌊q + 1 / 2⌋

/-- The `ContextMonitor` interface of `types/index.ts` (the resource ledger).
`agentUsage` is carried but never mutated by the wave manager. -/
structure ContextMonitor where
  totalCapacity : Int
  usedCapacity : Int
  reservedCapacity : Int
  waveUsage : List (String × Int)
  agentUsage : List (String × Int)
  utilizationPercentage : ℚ
  remainingCapacity : Int
deriving DecidableEq

/-- The ledger built by the `WaveManager` constructor
(`initialCapacity` defaults to 100000 in the source). -/
def initMonitor (initialCapacity : Int) : ContextMonitor :=
  { totalCapacity := initialCapacity
    usedCapacity := 0
    reservedCapacity := 0
    waveUsage := []
    agentUsage := []
    utilizationPercentage := 0
    remainingCapacity := initialCapacity }

/-- `WaveManager.updateContextUsage` (reserve): records the wave's usage,
increments `usedCapacity` and refreshes the derived fields.  The source
performs no capacity check of any kind. -/
def updateContextUsage (cm : ContextMonitor) (waveId : String) (usage : Int) :
    ContextMonitor :=
  let waveUsage := mapSet cm.waveUsage waveId usage
  let usedCapacity := cm.usedCapacity + usage
  { cm with
    waveUsage := waveUsage
    usedCapacity := usedCapacity
    remainingCapacity := cm.totalCapacity - usedCapacity
    utilizationPercentage := ((usedCapacity : ℚ) / (cm.totalCapacity : ℚ)) * 100 }

/-- `WaveManager.releaseContextUsage` (release): looks up the wave's recorded
usage (`|| 0` when absent), decrements `usedCapacity`, deletes the binding and
refreshes the derived fields.  (The source additionally drops the wave from
the active-wave registry, which only feeds wave numbering and is modelled
where needed in `executeWave`.) -/
def releaseContextUsage (cm : ContextMonitor) (waveId : String) : ContextMonitor :=
  let usage := (mapGet cm.waveUsage waveId).getD 0
  let usedCapacity := cm.usedCapacity - usage
  { cm with
    waveUsage := mapDelete cm.waveUsage waveId
    usedCapacity := usedCapacity
    remainingCapacity := cm.totalCapacity - usedCapacity
    utilizationPercentage := ((usedCapacity : ℚ) / (cm.totalCapacity : ℚ)) * 100 }

/-- `WaveManager.shouldTriggerGracefulShutdown` (default `threshold = 0.9`):
compares `utilizationPercentage` — a 0–100 scale value — with the threshold. -/
def shouldTriggerGracefulShutdown (cm : ContextMonitor) (threshold : ℚ) : Bool :=
  cm.utilizationPercentage ≥ threshold

/-- The `count` field of `OrchestrationMode`: `number | 'INFINITE'`. -/
inductive OrchCount where
  | num (n : Int)
  | infiniteCount
deriving DecidableEq

/-- The `type` field of `OrchestrationMode`. -/
inductive OrchType where
  | SINGLE
  | BATCH
  | INFINITE
deriving DecidableEq

/-- The `OrchestrationMode` interface of `types/index.ts`. -/
structure OrchestrationMode where
  type : OrchType
  count : OrchCount
  batchSize : Option Int
  maxWaves : Option Int
deriving DecidableEq

/-- JS `mode.batchSize || 5`: absent **or zero** (falsy) yields the default 5. -/
def batchSizeOrDefault (bs : Option Int) : Int :=
  match bs with
  | none => 5
  | some b => if b = 0 then 5 else b

/-- `WaveManager.calculateWaveSize`. -/
def calculateWaveSize (mode : OrchestrationMode) (existingCount : Int) : Int :=
  match mode.type with
  | .SINGLE => 1
  | .BATCH =>
    match mode.count with
    | .infiniteCount => 5
    | .num c => min (c - existingCount) (batchSizeOrDefault mode.batchSize)
  | .INFINITE => 5

/-- The `SpecificationDomain` interface (enum-valued fields kept as strings). -/
structure SpecificationDomain where
  category : String
  subcategory : String
  targetAudience : String
  complexity : String
deriving DecidableEq

/-- The `SophisticationLevel` interface. -/
structure SophisticationLevel where
  level : Int
  name : String
  description : String
  innovationTargets : List String
  qualityExpectations : List String
deriving DecidableEq

/-- The `ValidationRule` interface. -/
structure ValidationRule where
  type : String
  description : String
  validator : String
  severity : String
deriving DecidableEq

/-- The `outputRequirements` record of `UniversalSpecification`
(the `structure` field is renamed, `structure` being reserved in Lean). -/
structure OutputRequirements where
  format : String
  structureDescription : String
  namingPattern : String
  qualityStandards : List String
deriving DecidableEq

/-- The `UniversalSpecification` interface. -/
structure UniversalSpecification where
  id : String
  name : String
  description : String
  domain : SpecificationDomain
  version : String
  outputRequirements : OutputRequirements
  innovationDimensions : List String
  sophisticationLevels : List SophisticationLevel
  constraints : List String
  evolutionPattern : String
  progressionStrategy : String
  successCriteria : List String
  validationRules : List ValidationRule
deriving DecidableEq

/-- The `IterationInfo` interface. -/
structure IterationInfo where
  number : Int
  filePath : String
  summary : String
  innovationDimensions : List String
  qualityScore : ℚ
  uniquenessScore : ℚ
deriving DecidableEq

/-- The `UniqueDirective` interface. -/
structure UniqueDirective where
  innovationFocus : String
  creativeBoundary : String
  differentiationStrategy : String
  targetAudience : Option String
deriving DecidableEq

/-- The `TaskContext` interface. -/
structure TaskContext where
  specificationSummary : String
  existingWork : List String
  domainContext : String
  goalStatement : String
deriving DecidableEq

/-- The `QualityStandards` interface. -/
structure QualityStandards where
  functionalRequirements : List String
  designRequirements : List String
  performanceRequirements : List String
  uniquenessRequirements : List String
  domainSpecificRequirements : List String
deriving DecidableEq

/-- The `AgentAssignment` interface. -/
structure AgentAssignment where
  agentId : String
  iterationNumber : Int
  uniqueDirective : UniqueDirective
  taskContext : TaskContext
  qualityStandards : QualityStandards
deriving DecidableEq

/-- The `WaveStatus` union type. -/
inductive WaveStatus where
  | PLANNED
  | IN_PROGRESS
  | COMPLETED
  | FAILED
  | CANCELLED
deriving DecidableEq

/-- The `WaveResult` interface.  `completionTime` (wall-clock elapsed
milliseconds) carries no claim-relevant information and is modelled as 0. -/
structure WaveResult where
  agentId : String
  iterationNumber : Int
  success : Bool
  outputPath : Option String
  qualityScore : Option ℚ
  uniquenessScore : Option ℚ
  errorMessage : Option String
  completionTime : Int
deriving DecidableEq

/-- The `GenerationWave` interface.  `startTime`/`endTime` (`Date`) are
modelled as stamped-or-not (`Option Unit`). -/
structure GenerationWave where
  id : String
  waveNumber : Int
  specification : UniversalSpecification
  sophisticationLevel : SophisticationLevel
  agentAssignments : List AgentAssignment
  maxConcurrency : Int
  contextBudget : Int
  estimatedDuration : Int
  outputDirectory : String
  existingIterations : List IterationInfo
  targetIterations : Int
  status : WaveStatus
  startTime : Option Unit
  endTime : Option Unit
  results : Option (List WaveResult)
deriving DecidableEq

/-- The `WavePlanResult` interface. -/
structure WavePlanResult where
  waveConfiguration : GenerationWave
  agentAssignments : List AgentAssignment
  estimatedDuration : Int
  contextRequirement : Int
deriving DecidableEq

/-- `WaveManager.generateCreativeBoundary`. -/
def generateCreativeBoundary (spec : UniversalSpecification) (focus : String)
    (level : SophisticationLevel) : String :=
  "Explore " ++ focus ++ " with " ++ level.name ++
    " level innovation while maintaining " ++ spec.domain.category ++ " best practices"

/-- `WaveManager.generateDifferentiationStrategy`. -/
def generateDifferentiationStrategy (existing : List IterationInfo)
    (level : SophisticationLevel) : String :=
  if existing.length = 0 then
    "Establish foundational approach for " ++ level.name ++ " level implementation"
  else
    "Build upon existing approaches while introducing novel " ++ level.name ++ " level concepts"

/-- `WaveManager.generateSpecificationSummary`. -/
def generateSpecificationSummary (spec : UniversalSpecification) : String :=
  spec.name ++ ": " ++ spec.description ++ " | Domain: " ++ spec.domain.category ++
    " | Output: " ++ spec.outputRequirements.format

/-- `WaveManager.generateDomainContext`. -/
def generateDomainContext (domain : SpecificationDomain) : String :=
  domain.category ++ " development for " ++ domain.targetAudience ++
    " with " ++ domain.complexity ++ " complexity"

/-- `WaveManager.generateGoalStatement`. -/
def generateGoalStatement (spec : UniversalSpecification) (focus : String)
    (iteration : Int) : String :=
  "Create iteration " ++ toString iteration ++ " focusing on " ++ focus ++
    " while meeting: " ++ String.intercalate ", " spec.successCriteria

/-- `WaveManager.generatePerformanceRequirements`. -/
def generatePerformanceRequirements (domain : SpecificationDomain) : List String :=
  let baseRequirements := ["Efficient execution", "Reasonable resource usage"]
  if domain.category = "UI" then
    baseRequirements ++ ["Fast rendering", "Responsive interactions"]
  else if domain.category = "CODE" then
    baseRequirements ++ ["Optimal time complexity", "Memory efficiency"]
  else
    baseRequirements

/-- `WaveManager.generateDomainSpecificRequirements`. -/
def generateDomainSpecificRequirements (domain : SpecificationDomain) : List String :=
  if domain.category = "UI" then
    ["Accessibility compliance", "Cross-browser compatibility", "Mobile responsiveness"]
  else if domain.category = "CODE" then
    ["Code maintainability", "Documentation", "Test coverage"]
  else if domain.category = "DOCUMENTATION" then
    ["Clear structure", "Comprehensive examples", "Search optimization"]
  else
    ["Domain best practices", "Industry standards compliance"]

/-- JS array indexing `l[i]` with the out-of-range `undefined` modelled as the
string `"undefined"` (which is exactly the text JS would interpolate
downstream).  The `i % l.length` access pattern of the source only goes out of
range when `l` is empty, in which case `i % 0` is `NaN` in JS and the access
yields `undefined`. -/
def jsIndex (l : List String) (i : Nat) : String :=
  (l.get? (i % l.length)).getD "undefined"

/-- One iteration of the assignment-generation loop of
`WaveManager.generateAgentAssignments`: filter the dimension pool (with the
exhaustion fallback `usedDimensions.size >= innovationDimensions.length`),
pick index `i % availableDimensions.length`, and mark the pick used.
`agentIds` supplies the `agent_<uuid8>` identifiers drawn from
`crypto.randomUUID()`; `i` is the loop counter and `remaining` the number of
iterations left (`waveSize - i`). -/
def generateAssignmentsAux (spec : UniversalSpecification)
    (existing : List IterationInfo) (sl : SophisticationLevel)
    (agentIds : Nat → String) :
    Nat → Nat → List String → List AgentAssignment
  | _, 0, _ => []
  | i, remaining + 1, used =>
    let availableDimensions := spec.innovationDimensions.filter
      (fun dim => decide (dim ∉ used) ||
        decide (spec.innovationDimensions.length ≤ used.length))
    let innovationFocus := jsIndex availableDimensions i
    let used₁ := setAdd used innovationFocus
    let iterationNumber : Int := existing.length + i + 1
    let assignment : AgentAssignment :=
      { agentId := agentIds i
        iterationNumber := iterationNumber
        uniqueDirective :=
          { innovationFocus := innovationFocus
            creativeBoundary := generateCreativeBoundary spec innovationFocus sl
            differentiationStrategy := generateDifferentiationStrategy existing sl
            targetAudience := some spec.domain.targetAudience }
        taskContext :=
          { specificationSummary := generateSpecificationSummary spec
            existingWork := existing.map
              (fun iter => toString iter.number ++ ": " ++ iter.summary)
            domainContext := generateDomainContext spec.domain
            goalStatement := generateGoalStatement spec innovationFocus iterationNumber }
        qualityStandards :=
          { functionalRequirements := spec.outputRequirements.qualityStandards
            designRequirements := sl.qualityExpectations
            performanceRequirements := generatePerformanceRequirements spec.domain
            uniquenessRequirements :=
              [ "Must differentiate from existing iterations",
                "Must explore " ++ innovationFocus ++ " dimension",
                "Must achieve " ++ sl.name ++ " level quality" ]
            domainSpecificRequirements := generateDomainSpecificRequirements spec.domain } }
    assignment :: generateAssignmentsAux spec existing sl agentIds (i + 1) remaining used₁

/-- The `usedDimensions` set seeded from the innovation dimensions of every
existing iteration (the first loop of `generateAgentAssignments`). -/
def seedUsedDimensions (existing : List IterationInfo) : List String :=
  existing.foldl (fun s iter => iter.innovationDimensions.foldl setAdd s) []

/-- `WaveManager.generateAgentAssignments`.  A nonpositive `waveSize` runs the
`for` loop zero times. -/
def generateAgentAssignments (spec : UniversalSpecification) (waveSize : Int)
    (existing : List IterationInfo) (sl : SophisticationLevel)
    (agentIds : Nat → String) : List AgentAssignment :=
  generateAssignmentsAux spec existing sl agentIds 0 waveSize.toNat
    (seedUsedDimensions existing)

/-- `WaveManager.estimateContextRequirement`:
`Math.round(waveSize * 5000 * (level * 1.5))` (exact in ℚ; the product is an
exactly representable float for integer inputs, so no float error arises). -/
def estimateContextRequirement (waveSize : Int) (sl : SophisticationLevel) : Int :=
  jsRound ((waveSize : ℚ) * 5000 * ((sl.level : ℚ) * (3 / 2)))

/-- `WaveManager.estimateWaveDuration`:
`Math.round(120 * (level * 1.3))` (modelled with the exact rational 13/10;
the binary-float error of `1.3` is far below rounding granularity for the
integer levels in use). -/
def estimateWaveDuration (_waveSize : Int) (sl : SophisticationLevel) : Int :=
  jsRound (120 * ((sl.level : ℚ) * (13 / 10)))

/-- `WaveManager.planWave`.  `waveId` (a fresh `crypto.randomUUID()`) and
`waveNumber` (`getNextWaveNumber()`, read off the active-wave registry) are
nondeterministic/stateful inputs taken as parameters. -/
def planWave (spec : UniversalSpecification) (mode : OrchestrationMode)
    (existing : List IterationInfo) (sl : SophisticationLevel)
    (outputDirectory : String) (waveId : String) (waveNumber : Int)
    (agentIds : Nat → String) : WavePlanResult :=
  let waveSize := calculateWaveSize mode existing.length
  let contextRequirement := estimateContextRequirement waveSize sl
  let agentAssignments := generateAgentAssignments spec waveSize existing sl agentIds
  let waveConfiguration : GenerationWave :=
    { id := waveId
      waveNumber := waveNumber
      specification := spec
      sophisticationLevel := sl
      agentAssignments := agentAssignments
      maxConcurrency := min waveSize 5
      contextBudget := contextRequirement
      estimatedDuration := estimateWaveDuration waveSize sl
      outputDirectory := outputDirectory
      existingIterations := existing
      targetIterations := waveSize
      status := .PLANNED
      startTime := none
      endTime := none
      results := none }
  { waveConfiguration := waveConfiguration
    agentAssignments := agentAssignments
    estimatedDuration := waveConfiguration.estimatedDuration
    contextRequirement := contextRequirement }

/-- The outcome the external worker-execution capability reports for one
assignment: the quality and uniqueness scores of the produced iteration.
The source's `executeAgent` body simulates this call (fixed success, random
scores); per the design notes the scores are an external contract, so the
worker is a parameter of the execution model. -/
structure WorkerOutput where
  qualityScore : ℚ
  uniquenessScore : ℚ
deriving DecidableEq

/-- The `namingPattern.replace('{number}', iterationNumber.toString())` step
of `executeAgent` (JS `String.replace` with a string pattern replaces the
first occurrence; `String.replace` in Lean replaces all — the patterns in use
contain a single placeholder, where both agree). -/
def instantiateNamingPattern (pattern : String) (iterationNumber : Int) : String :=
  pattern.replace "\x7bnumber\x7d" (toString iterationNumber)

/-- `WaveManager.executeAgent`: dispatch the assignment to the worker; a
successful outcome yields a `success := true` result carrying the output path
and scores, a failure is caught and absorbed into a `success := false` result
carrying `errorMessage` — it is never rethrown. -/
def executeAgent (worker : AgentAssignment → Except String WorkerOutput)
    (wave : GenerationWave) (assignment : AgentAssignment) : WaveResult :=
  match worker assignment with
  | .ok out =>
    { agentId := assignment.agentId
      iterationNumber := assignment.iterationNumber
      success := true
      outputPath := some (wave.outputDirectory ++ "/" ++
        instantiateNamingPattern wave.specification.outputRequirements.namingPattern
          assignment.iterationNumber)
      qualityScore := some out.qualityScore
      uniquenessScore := some out.uniquenessScore
      errorMessage := none
      completionTime := 0 }
  | .error e =>
    { agentId := assignment.agentId
      iterationNumber := assignment.iterationNumber
      success := false
      outputPath := none
      qualityScore := none
      uniquenessScore := none
      errorMessage := some ("Agent execution failed: " ++ e)
      completionTime := 0 }

/-- Consecutive chunks of size `n + 1` (the slicing loop of
`createAgentBatches` for a positive step).  `fuel` bounds the number of loop
iterations; instantiating it with the list length is always sufficient since
every iteration consumes at least one element. -/
def chunksPos (n : Nat) : Nat → List α → List (List α)
  | _, [] => []
  | 0, _ :: _ => []
  | fuel + 1, x :: xs => (x :: xs.take n) :: chunksPos n fuel (xs.drop n)

/-- `WaveManager.createAgentBatches`: slice the assignment list into
consecutive batches of `maxConcurrency`, preserving order.  With a
nonpositive `maxConcurrency` the source's `for (i += maxConcurrency)` loop
terminates only when the list is empty (yielding `[]`); planner-produced
waves have a nonpositive `maxConcurrency` only with an empty assignment list,
and the model returns `[]` for that case. -/
def createAgentBatches (assignments : List AgentAssignment)
    (maxConcurrency : Int) : List (List AgentAssignment) :=
  match maxConcurrency.toNat with
  | 0 => []
  | n + 1 => chunksPos n assignments.length assignments

/-- `WaveManager.executeBatch`: dispatch every assignment of the batch
concurrently and await all outcomes.  `Promise.all` preserves input order
(results are zipped back by position, not arrival), and `executeAgent` never
rejects, so the batch result is the positional map of `executeAgent`. -/
def executeBatch (worker : AgentAssignment → Except String WorkerOutput)
    (wave : GenerationWave) (batch : List AgentAssignment) : List WaveResult :=
  batch.map (executeAgent worker wave)

/-- The `for (const batch of batches)` loop inside `executeWave`'s `try`
block: run the batches in order, concatenating results; an exception escaping
a batch aborts the loop and propagates (results accumulated so far are
discarded with the local variable). -/
def runBatches (runBatch : List AgentAssignment → Except String (List WaveResult)) :
    List (List AgentAssignment) → Except String (List WaveResult)
  | [] => .ok []
  | b :: bs =>
    match runBatch b with
    | .error e => .error e
    | .ok rs =>
      match runBatches runBatch bs with
      | .error e => .error e
      | .ok rest => .ok (rs ++ rest)

/-- The outcome of `WaveManager.executeWave`: the ledger after the
unconditional `finally` release, the mutated wave object, and the
return/throw value. -/
structure ExecOutcome where
  monitor : ContextMonitor
  wave : GenerationWave
  returned : Except String (List WaveResult)

/-- `WaveManager.executeWave`.  The body is parametrized by `runBatch`, the
awaited per-batch step: the normal path is
`fun w b => Except.ok (executeBatch worker w b)` (the source's `executeBatch`
never rejects), while an `Except.error` models an unexpected exception
escaping batch handling — the event the source's `catch` branch (status
`FAILED`) exists for.  The `finally` release runs on both paths.  (The
active-wave registry bookkeeping, which only feeds `getNextWaveNumber`, is
not claim-relevant and is elided.) -/
def executeWave (runBatch : GenerationWave → List AgentAssignment →
      Except String (List WaveResult))
    (cm : ContextMonitor) (wave : GenerationWave) : ExecOutcome :=
  let wave₁ := { wave with status := .IN_PROGRESS, startTime := some () }
  let cm₁ := updateContextUsage cm wave₁.id wave₁.contextBudget
  let batches := createAgentBatches wave₁.agentAssignments wave₁.maxConcurrency
  match runBatches (runBatch wave₁) batches with
  | .ok results =>
    { monitor := releaseContextUsage cm₁ wave₁.id
      wave := { wave₁ with status := .COMPLETED, endTime := some (),
                           results := some results }
      returned := .ok results }
  | .error e =>
    { monitor := releaseContextUsage cm₁ wave₁.id
      wave := { wave₁ with status := .FAILED, endTime := some () }
      returned := .error ("Wave execution failed: " ++ e) }

/-- One ledger operation: a wave-start reservation (`updateContextUsage`) or a
wave-end release (`releaseContextUsage`). -/
inductive LedgerOp where
  | reserve (waveId : String) (amount : Int)
  | release (waveId : String)
deriving DecidableEq

/-- Apply one ledger operation. -/
def applyLedgerOp (cm : ContextMonitor) : LedgerOp → ContextMonitor
  | .reserve waveId amount => updateContextUsage cm waveId amount
  | .release waveId => releaseContextUsage cm waveId

/-- Apply a sequence of ledger operations in order. -/
def applyLedgerOps (cm : ContextMonitor) (ops : List LedgerOp) : ContextMonitor :=
  ops.foldl applyLedgerOp cm

/-- The sum of the per-wave reservations recorded in the ledger. -/
def waveUsageSum (cm : ContextMonitor) : Int :=
  (cm.waveUsage.map Prod.snd).sum

/-- Whether every reserve in the sequence targets a wave id with no current
reservation — the discipline `executeWave` follows by keying reservations on
freshly drawn UUID wave ids. -/
def freshReserves : ContextMonitor → List LedgerOp → Bool
  | _, [] => true
  | cm, op :: ops =>
    (match op with
     | .reserve waveId _ => (mapGet cm.waveUsage waveId).isNone
     | .release _ => true) && freshReserves (applyLedgerOp cm op) ops

/-! Concrete sample data used by witnesses and counterexamples. -/

/-- A concrete specification domain. -/
def sampleDomain : SpecificationDomain :=
  { category := "UI"
    subcategory := "React components"
    targetAudience := "Developers"
    complexity := "SIMPLE" }

/-- A concrete sophistication level. -/
def sampleLevel : SophisticationLevel :=
  { level := 1
    name := "Basic"
    description := "entry level"
    innovationTargets := ["layout"]
    qualityExpectations := ["clean markup"] }

/-- A concrete specification with the two innovation dimensions `a` and `b`. -/
def sampleSpec : UniversalSpecification :=
  { id := "spec-1"
    name := "Sample"
    description := "sample spec"
    domain := sampleDomain
    version := "1.0.0"
    outputRequirements :=
      { format := "file"
        structureDescription := "single file"
        namingPattern := "iteration_\x7bnumber\x7d.tsx"
        qualityStandards := ["works"] }
    innovationDimensions := ["a", "b"]
    sophisticationLevels := [sampleLevel]
    constraints := []
    evolutionPattern := "LINEAR"
    progressionStrategy := "linear"
    successCriteria := ["renders"]
    validationRules := [] }

/-- A concrete prior iteration that already exercised dimension `a`. -/
def sampleIteration : IterationInfo :=
  { number := 1
    filePath := "out/iteration_1.tsx"
    summary := "first"
    innovationDimensions := ["a"]
    qualityScore := 90
    uniquenessScore := 90 }

/-- A fixed agent-id supply standing in for `crypto.randomUUID()`. -/
def sampleAgentIds (i : Nat) : String := "agent_" ++ toString i

/-- The innovation focuses assigned within one planned wave, in assignment
order. -/
def waveFocuses (plan : WavePlanResult) : List String :=
  plan.agentAssignments.map (fun a => a.uniqueDirective.innovationFocus)

/-! Association-list lemmas for the ledger map. -/

theorem mapGet_mapSet (m : List (String × Int)) (k : String) (v : Int) :
    mapGet (mapSet m k v) k = some v := by
  induction m with
  | nil => simp [mapSet, mapGet]
  | cons p rest ih =>
    obtain ⟨k₀, v₀⟩ := p
    by_cases h : k₀ = k
    · simp [mapSet, mapGet, h]
    · simp [mapSet, mapGet, h, ih]

theorem sum_mapSet_fresh (m : List (String × Int)) (k : String) (v : Int)
    (h : mapGet m k = none) :
    ((mapSet m k v).map Prod.snd).sum = (m.map Prod.snd).sum + v := by
  induction m with
  | nil => simp [mapSet]
  | cons p rest ih =>
    obtain ⟨k₀, v₀⟩ := p
    by_cases hk : k₀ = k
    · simp [mapGet, hk] at h
    · simp only [mapGet, hk, if_false] at h
      simp [mapSet, hk, ih h]
      ring

theorem sum_mapDelete (m : List (String × Int)) (k : String) :
    ((mapDelete m k).map Prod.snd).sum
      = (m.map Prod.snd).sum - ((mapGet m k).getD 0) := by
  induction m with
  | nil => simp [mapDelete, mapGet]
  | cons p rest ih =>
    obtain ⟨k₀, v₀⟩ := p
    by_cases hk : k₀ = k
    · simp [mapDelete, mapGet, hk]
    · simp [mapDelete, mapGet, hk, ih]
      ring

theorem mapGet_eq_none_of_not_mem (m : List (String × Int)) (k : String)
    (h : k ∉ m.map Prod.fst) : mapGet m k = none := by
  induction m with
  | nil => rfl
  | cons p rest ih =>
    obtain ⟨k₀, v₀⟩ := p
    simp only [List.map_cons, List.mem_cons, not_or] at h
    have hk : k₀ ≠ k := fun e => h.1 e.symm
    simp [mapGet, hk, ih h.2]

theorem mapGet_mapDelete_of_nodup (m : List (String × Int)) (k : String)
    (h : (m.map Prod.fst).Nodup) : mapGet (mapDelete m k) k = none := by
  induction m with
  | nil => simp [mapDelete, mapGet]
  | cons p rest ih =>
    obtain ⟨k₀, v₀⟩ := p
    simp only [List.map_cons, List.nodup_cons] at h
    by_cases hk : k₀ = k
    · subst hk
      have hd : mapDelete ((k₀, v₀) :: rest) k₀ = rest := by simp [mapDelete]
      rw [hd]
      exact mapGet_eq_none_of_not_mem rest k₀ h.1
    · simp [mapDelete, hk, mapGet, ih h.2]

/-- C1 counterexample (the spec's own §8 scenario): with `totalCapacity =
10000` and `usedCapacity = 6000`, reserving 5000 more exceeds the total, yet
`updateContextUsage` does not fail and does not leave the ledger unchanged —
it books `usedCapacity = 11000`. -/
theorem reserve_overCapacity_applies :
    let cm := updateContextUsage (initMonitor 10000) "waveA" 6000
    cm.usedCapacity + 5000 > cm.totalCapacity ∧
    (updateContextUsage cm "waveB" 5000).usedCapacity = 11000 ∧
    updateContextUsage cm "waveB" 5000 ≠ cm := by
  decide

/-- C1 (amended): `updateContextUsage` (reserve) never fails: for every ledger
state, wave id and amount it unconditionally increments `usedCapacity` by the
amount and records the wave's reservation, even when
`usedCapacity + amount > totalCapacity`; the source contains no
`CapacityExceeded` check. -/
theorem reserve_unconditionally_applies (cm : ContextMonitor) (waveId : String)
    (amount : Int) :
    (updateContextUsage cm waveId amount).usedCapacity = cm.usedCapacity + amount ∧
    mapGet (updateContextUsage cm waveId amount).waveUsage waveId = some amount :=
  ⟨rfl, mapGet_mapSet cm.waveUsage waveId amount⟩

/-- C2: `shouldTriggerGracefulShutdown` compares `utilizationPercentage` (a
0–100 scale value) against a threshold the server validates into [0.1, 1.0]
(a fraction): with 1000 of 100000 capacity used (utilization 1%), the
predicate already returns `true` at threshold 0.9 although
`usedCapacity / totalCapacity = 1/100 < 9/10` — the percent/fraction unit
mismatch the claim's `used/total >= fraction` reading exposes. -/
theorem gracefulShutdown_unit_mismatch :
    shouldTriggerGracefulShutdown
        (updateContextUsage (initMonitor 100000) "waveA" 1000) (9 / 10) = true ∧
    ¬ (((updateContextUsage (initMonitor 100000) "waveA" 1000).usedCapacity : ℚ) /
        ((updateContextUsage (initMonitor 100000) "waveA" 1000).totalCapacity : ℚ)
        ≥ 9 / 10) := by
  constructor
  · simp only [shouldTriggerGracefulShutdown, updateContextUsage, initMonitor,
      decide_eq_true_eq, ge_iff_le]
    norm_num
  · simp only [updateContextUsage, initMonitor, ge_iff_le]
    norm_num

/-- C5 counterexample: reserving twice under the same wave id is a sequence
of reserve operations after which the sum of the recorded reservations (3)
differs from `usedCapacity` (8): `Map.set` overwrites the old reservation but
`usedCapacity += usage` keeps counting it. -/
theorem ledgerSum_double_reserve_counterexample :
    waveUsageSum (applyLedgerOps (initMonitor 100000)
        [.reserve "w" 5, .reserve "w" 3])
      ≠ (applyLedgerOps (initMonitor 100000)
        [.reserve "w" 5, .reserve "w" 3]).usedCapacity := by
  decide

/-- C5 (amended): in every ledger state reachable by a sequence of reserve
(`updateContextUsage`) and release (`releaseContextUsage`) operations in which
each reserve targets a wave id with no current reservation (the fresh-UUID
discipline `executeWave` follows), the sum of the per-wave reservations in
`waveUsage` equals `usedCapacity`. -/
theorem ledgerSum_invariant (ops : List LedgerOp) (cm : ContextMonitor)
    (hsum : waveUsageSum cm = cm.usedCapacity)
    (hfresh : freshReserves cm ops = true) :
    waveUsageSum (applyLedgerOps cm ops) = (applyLedgerOps cm ops).usedCapacity := by
  induction ops generalizing cm with
  | nil => exact hsum
  | cons op ops ih =>
    have hsum' : (cm.waveUsage.map Prod.snd).sum = cm.usedCapacity := hsum
    cases op with
    | reserve waveId amount =>
      rw [show freshReserves cm (LedgerOp.reserve waveId amount :: ops)
          = ((mapGet cm.waveUsage waveId).isNone
            && freshReserves (applyLedgerOp cm (.reserve waveId amount)) ops) from rfl,
        Bool.and_eq_true] at hfresh
      have hnone : mapGet cm.waveUsage waveId = none := by
        simpa [Option.isNone_iff_eq_none] using hfresh.1
      have hsum1 : waveUsageSum (updateContextUsage cm waveId amount)
          = (updateContextUsage cm waveId amount).usedCapacity := by
        show ((mapSet cm.waveUsage waveId amount).map Prod.snd).sum
          = cm.usedCapacity + amount
        rw [sum_mapSet_fresh cm.waveUsage waveId amount hnone]
        omega
      exact ih (applyLedgerOp cm (.reserve waveId amount)) hsum1 hfresh.2
    | release waveId =>
      rw [show freshReserves cm (LedgerOp.release waveId :: ops)
          = (true && freshReserves (applyLedgerOp cm (.release waveId)) ops) from rfl,
        Bool.true_and] at hfresh
      have hsum1 : waveUsageSum (releaseContextUsage cm waveId)
          = (releaseContextUsage cm waveId).usedCapacity := by
        show ((mapDelete cm.waveUsage waveId).map Prod.snd).sum
          = cm.usedCapacity - (mapGet cm.waveUsage waveId).getD 0
        rw [sum_mapDelete cm.waveUsage waveId]
        omega
      exact ih (applyLedgerOp cm (.release waveId)) hsum1 hfresh

/-- C5 witness: the invariant instantiated on the concrete fresh-id sequence
reserve `a` 6000, release `a`, reserve `a` 100 from the initial ledger. -/
theorem ledgerSum_invariant_witness :
    waveUsageSum (initMonitor 100000) = (initMonitor 100000).usedCapacity ∧
    freshReserves (initMonitor 100000)
      [.reserve "a" 6000, .release "a", .reserve "a" 100] = true ∧
    waveUsageSum (applyLedgerOps (initMonitor 100000)
        [.reserve "a" 6000, .release "a", .reserve "a" 100])
      = (applyLedgerOps (initMonitor 100000)
        [.reserve "a" 6000, .release "a", .reserve "a" 100]).usedCapacity :=
  ⟨by decide, by decide,
    ledgerSum_invariant [.reserve "a" 6000, .release "a", .reserve "a" 100]
      (initMonitor 100000) (by decide) (by decide)⟩

/-- C6: release after reserve of the same wave id restores `usedCapacity` to
its pre-reserve value; release on a wave id not present in `waveUsage` leaves
`usedCapacity` unchanged; and a second release of the same wave id is a no-op
on `usedCapacity` (idempotence; for the second part the ledger's keys are
duplicate-free, as every reachable ledger's are). -/
theorem release_reserve_properties (cm : ContextMonitor) (waveId : String)
    (amount : Int) (hnd : (cm.waveUsage.map Prod.fst).Nodup) :
    (releaseContextUsage (updateContextUsage cm waveId amount) waveId).usedCapacity
      = cm.usedCapacity ∧
    (mapGet cm.waveUsage waveId = none →
      (releaseContextUsage cm waveId).usedCapacity = cm.usedCapacity) ∧
    (releaseContextUsage (releaseContextUsage cm waveId) waveId).usedCapacity
      = (releaseContextUsage cm waveId).usedCapacity := by
  refine ⟨?_, ?_, ?_⟩
  · unfold releaseContextUsage updateContextUsage
    simp only [mapGet_mapSet]
    simp [Option.getD]
  · intro h
    unfold releaseContextUsage
    simp [h]
  · unfold releaseContextUsage
    simp only
    rw [mapGet_mapDelete_of_nodup cm.waveUsage waveId hnd]
    simp [Option.getD]

/-- C6 witness: the three release properties instantiated on the ledger
holding a single reservation of 5 for wave `x`. -/
theorem release_reserve_properties_witness :
    ((updateContextUsage (initMonitor 10000) "x" 5).waveUsage.map Prod.fst).Nodup ∧
    ((releaseContextUsage (updateContextUsage
          (updateContextUsage (initMonitor 10000) "x" 5) "y" 7) "y").usedCapacity
        = (updateContextUsage (initMonitor 10000) "x" 5).usedCapacity ∧
      (mapGet (updateContextUsage (initMonitor 10000) "x" 5).waveUsage "y" = none →
        (releaseContextUsage (updateContextUsage (initMonitor 10000) "x" 5) "y").usedCapacity
          = (updateContextUsage (initMonitor 10000) "x" 5).usedCapacity) ∧
      (releaseContextUsage (releaseContextUsage
            (updateContextUsage (initMonitor 10000) "x" 5) "y") "y").usedCapacity
        = (releaseContextUsage (updateContextUsage (initMonitor 10000) "x" 5) "y").usedCapacity) :=
  ⟨by decide,
    release_reserve_properties (updateContextUsage (initMonitor 10000) "x" 5)
      "y" 7 (by decide)⟩

/-- C8: the planned wave size is 1 for SINGLE; `min(count - existingCount,
batchSize or default 5)` for BATCH with a numeric count (batchSize absent
defaults to 5; the nonzero hypothesis reflects JS `batchSize || 5`
falsiness, and the server validates batchSize into [1, 20]); 5 for INFINITE
and for BATCH with count `'INFINITE'`; and the spec's scenario
`BATCH, count 7, batchSize 5, existingCount 0` yields 5. -/
theorem waveSize_by_mode :
    (∀ (cnt : OrchCount) (bs mw : Option Int) (e : Int),
      calculateWaveSize ⟨.SINGLE, cnt, bs, mw⟩ e = 1) ∧
    (∀ (c e : Int) (mw : Option Int),
      calculateWaveSize ⟨.BATCH, .num c, none, mw⟩ e = min (c - e) 5) ∧
    (∀ (c e b : Int) (mw : Option Int), b ≠ 0 →
      calculateWaveSize ⟨.BATCH, .num c, some b, mw⟩ e = min (c - e) b) ∧
    (∀ (cnt : OrchCount) (bs mw : Option Int) (e : Int),
      calculateWaveSize ⟨.INFINITE, cnt, bs, mw⟩ e = 5) ∧
    (∀ (bs mw : Option Int) (e : Int),
      calculateWaveSize ⟨.BATCH, .infiniteCount, bs, mw⟩ e = 5) ∧
    calculateWaveSize ⟨.BATCH, .num 7, some 5, none⟩ 0 = 5 := by
  refine ⟨fun _ _ _ _ => rfl, fun _ _ _ => rfl, ?_, fun _ _ _ _ => rfl,
    fun _ _ _ => rfl, ?_⟩
  · intro c e b mw hb
    simp [calculateWaveSize, batchSizeOrDefault, hb]
  · show min ((7 : Int) - 0) (batchSizeOrDefault (some 5)) = 5
    norm_num [batchSizeOrDefault]

/-- C8 witness: the nonzero-batchSize case instantiated on the spec's
scenario (count 7, batchSize 5, no existing iterations). -/
theorem waveSize_by_mode_witness :
    (5 : Int) ≠ 0 ∧
    calculateWaveSize ⟨.BATCH, .num 7, some 5, none⟩ 0 = min ((7 : Int) - 0) 5 :=
  ⟨by decide, waveSize_by_mode.2.2.1 7 0 5 none (by decide)⟩

/-- C10: for BATCH mode with a numeric count no greater than the number of
existing iterations, `planWave` returns normally (the model is total, as is
the source's loop, which simply runs zero times) with an empty assignment
list, and both `targetIterations` and `maxConcurrency` equal the nonpositive
`count - existingCount`.  The effective batch size is at least 1, as the
server's validation (`batchSize` in [1, 20] or absent) guarantees. -/
theorem planWave_nonpositive_remaining (spec : UniversalSpecification)
    (existing : List IterationInfo) (sl : SophisticationLevel)
    (outDir waveId : String) (waveNumber : Int) (agentIds : Nat → String)
    (c : Int) (bs mw : Option Int)
    (hc : c ≤ existing.length)
    (hbs : 1 ≤ batchSizeOrDefault bs) :
    (planWave spec ⟨.BATCH, .num c, bs, mw⟩ existing sl outDir waveId
        waveNumber agentIds).agentAssignments = [] ∧
    (planWave spec ⟨.BATCH, .num c, bs, mw⟩ existing sl outDir waveId
        waveNumber agentIds).waveConfiguration.agentAssignments = [] ∧
    (planWave spec ⟨.BATCH, .num c, bs, mw⟩ existing sl outDir waveId
        waveNumber agentIds).waveConfiguration.targetIterations
      = c - existing.length ∧
    (planWave spec ⟨.BATCH, .num c, bs, mw⟩ existing sl outDir waveId
        waveNumber agentIds).waveConfiguration.maxConcurrency
      = c - existing.length := by
  have hws : calculateWaveSize ⟨.BATCH, .num c, bs, mw⟩ existing.length
      = c - existing.length := by
    show min (c - (existing.length : Int)) (batchSizeOrDefault bs)
      = c - existing.length
    exact min_eq_left (by omega)
  have hzero : (c - (existing.length : Int)).toNat = 0 := by omega
  have hassign : generateAgentAssignments spec (c - existing.length) existing
      sl agentIds = [] := by
    unfold generateAgentAssignments
    rw [hzero]
    rfl
  refine ⟨?_, ?_, ?_, ?_⟩
  · show generateAgentAssignments spec
      (calculateWaveSize ⟨.BATCH, .num c, bs, mw⟩ existing.length) existing
      sl agentIds = []
    rw [hws]; exact hassign
  · show generateAgentAssignments spec
      (calculateWaveSize ⟨.BATCH, .num c, bs, mw⟩ existing.length) existing
      sl agentIds = []
    rw [hws]; exact hassign
  · exact hws
  · show min (calculateWaveSize ⟨.BATCH, .num c, bs, mw⟩ existing.length) 5
      = c - existing.length
    rw [hws]; exact min_eq_left (by omega)

/-- C10 witness: two existing iterations, BATCH count 1, batch size 5. -/
theorem planWave_nonpositive_remaining_witness :
    ((1 : Int) ≤ ([sampleIteration, sampleIteration] : List IterationInfo).length) ∧
    (1 ≤ batchSizeOrDefault (some 5)) ∧
    ((planWave sampleSpec ⟨.BATCH, .num 1, some 5, none⟩
        [sampleIteration, sampleIteration] sampleLevel "out" "w" 1
        sampleAgentIds).agentAssignments = [] ∧
      (planWave sampleSpec ⟨.BATCH, .num 1, some 5, none⟩
        [sampleIteration, sampleIteration] sampleLevel "out" "w" 1
        sampleAgentIds).waveConfiguration.agentAssignments = [] ∧
      (planWave sampleSpec ⟨.BATCH, .num 1, some 5, none⟩
        [sampleIteration, sampleIteration] sampleLevel "out" "w" 1
        sampleAgentIds).waveConfiguration.targetIterations
        = 1 - ([sampleIteration, sampleIteration] : List IterationInfo).length ∧
      (planWave sampleSpec ⟨.BATCH, .num 1, some 5, none⟩
        [sampleIteration, sampleIteration] sampleLevel "out" "w" 1
        sampleAgentIds).waveConfiguration.maxConcurrency
        = 1 - ([sampleIteration, sampleIteration] : List IterationInfo).length) :=
  ⟨by decide, by decide,
    planWave_nonpositive_remaining sampleSpec [sampleIteration, sampleIteration]
      sampleLevel "out" "w" 1 sampleAgentIds 1 (some 5) none
      (by decide) (by decide)⟩

/-! Execution-path lemmas. -/

theorem chunksPos_flatten (n : Nat) :
    ∀ (fuel : Nat) (l : List α), l.length ≤ fuel →
      (chunksPos n fuel l).flatten = l := by
  intro fuel
  induction fuel with
  | zero =>
    intro l hl
    cases l with
    | nil => rfl
    | cons x xs => simp at hl
  | succ fuel ih =>
    intro l hl
    cases l with
    | nil => rfl
    | cons x xs =>
      show ((x :: xs.take n) :: chunksPos n fuel (xs.drop n)).flatten = x :: xs
      have hd : (xs.drop n).length ≤ fuel := by
        simp only [List.length_drop]
        simp only [List.length_cons] at hl
        omega
      rw [List.flatten_cons, ih (xs.drop n) hd, List.cons_append,
        List.take_append_drop]

theorem createAgentBatches_flatten (assignments : List AgentAssignment) (m : Int)
    (h : 1 ≤ m ∨ assignments = []) :
    (createAgentBatches assignments m).flatten = assignments := by
  cases hm : m.toNat with
  | zero =>
    have ha : assignments = [] := by
      rcases h with h₁ | h₂
      · exfalso; omega
      · exact h₂
    simp [createAgentBatches, hm, ha]
  | succ n =>
    simp only [createAgentBatches, hm]
    exact chunksPos_flatten n assignments.length assignments le_rfl

theorem runBatches_ok (f : List AgentAssignment → List WaveResult)
    (bs : List (List AgentAssignment)) :
    runBatches (fun b => .ok (f b)) bs = .ok ((bs.map f).flatten) := by
  induction bs with
  | nil => rfl
  | cons b rest ih => simp [runBatches, ih]

/-- `executeAgent` reads only `outputDirectory` and `specification` off the
wave, so it is unaffected by the status/timestamp mutations `executeWave`
makes before dispatching. -/
theorem executeAgent_eq_of_projections
    (worker : AgentAssignment → Except String WorkerOutput)
    (w₁ w₂ : GenerationWave) (a : AgentAssignment)
    (hdir : w₁.outputDirectory = w₂.outputDirectory)
    (hspec : w₁.specification = w₂.specification) :
    executeAgent worker w₁ a = executeAgent worker w₂ a := by
  unfold executeAgent
  cases worker a with
  | ok o => simp [hdir, hspec]
  | error e => rfl

theorem executeWave_ok_parts
    (runBatch : GenerationWave → List AgentAssignment → Except String (List WaveResult))
    (cm : ContextMonitor) (wave : GenerationWave) (results : List WaveResult)
    (h : runBatches (runBatch { wave with status := .IN_PROGRESS, startTime := some () })
        (createAgentBatches wave.agentAssignments wave.maxConcurrency) = .ok results) :
    (executeWave runBatch cm wave).returned = .ok results ∧
    (executeWave runBatch cm wave).wave.status = .COMPLETED ∧
    (executeWave runBatch cm wave).wave.results = some results := by
  simp [executeWave, h]

theorem executeWave_error_parts
    (runBatch : GenerationWave → List AgentAssignment → Except String (List WaveResult))
    (cm : ContextMonitor) (wave : GenerationWave) (e : String)
    (h : runBatches (runBatch { wave with status := .IN_PROGRESS, startTime := some () })
        (createAgentBatches wave.agentAssignments wave.maxConcurrency) = .error e) :
    (executeWave runBatch cm wave).returned
      = .error ("Wave execution failed: " ++ e) ∧
    (executeWave runBatch cm wave).wave.status = .FAILED ∧
    (executeWave runBatch cm wave).wave.results = wave.results := by
  simp [executeWave, h]

/-- On the normal path — every per-assignment failure absorbed by
`executeAgent`, no exception escaping batch handling — `executeWave` returns
the in-order map of `executeAgent` over the assignments, completes the wave
and stores the results. -/
theorem executeWave_normal_parts
    (worker : AgentAssignment → Except String WorkerOutput)
    (cm : ContextMonitor) (wave : GenerationWave)
    (h : 1 ≤ wave.maxConcurrency ∨ wave.agentAssignments = []) :
    (executeWave (fun w b => .ok (executeBatch worker w b)) cm wave).returned
      = .ok (wave.agentAssignments.map (executeAgent worker wave)) ∧
    (executeWave (fun w b => .ok (executeBatch worker w b)) cm wave).wave.status
      = .COMPLETED ∧
    (executeWave (fun w b => .ok (executeBatch worker w b)) cm wave).wave.results
      = some (wave.agentAssignments.map (executeAgent worker wave)) := by
  have hfun : executeAgent worker
        { wave with status := .IN_PROGRESS, startTime := some () }
      = executeAgent worker wave :=
    funext fun a => executeAgent_eq_of_projections worker _ wave a rfl rfl
  have hrb : runBatches
      ((fun w b => Except.ok (executeBatch worker w b))
        { wave with status := .IN_PROGRESS, startTime := some () })
      (createAgentBatches wave.agentAssignments wave.maxConcurrency)
      = .ok (wave.agentAssignments.map (executeAgent worker wave)) := by
    rw [show ((fun w b => Except.ok (executeBatch worker w b))
          { wave with status := .IN_PROGRESS, startTime := some () })
        = (fun b => Except.ok
            (executeBatch worker
              { wave with status := .IN_PROGRESS, startTime := some () } b))
      from rfl]
    rw [runBatches_ok]
    show Except.ok (((createAgentBatches wave.agentAssignments wave.maxConcurrency).map
        (List.map (executeAgent worker
          { wave with status := .IN_PROGRESS, startTime := some () }))).flatten) = _
    rw [hfun, ← List.map_flatten,
      createAgentBatches_flatten wave.agentAssignments wave.maxConcurrency h]
  exact executeWave_ok_parts _ cm wave _ hrb

/-- A single-assignment planned wave used by concrete executions. -/
def sampleSingleWave : GenerationWave :=
  (planWave sampleSpec ⟨.SINGLE, .num 1, none, none⟩ [] sampleLevel "out"
    "wave-1" 1 sampleAgentIds).waveConfiguration

/-- A worker that always succeeds with fixed scores. -/
def sampleWorker : AgentAssignment → Except String WorkerOutput :=
  fun _ => .ok ⟨90, 95⟩

/-- A batch step through which an unexpected exception escapes — the event
the `catch` branch of `executeWave` handles. -/
def failingRunBatch :
    GenerationWave → List AgentAssignment → Except String (List WaveResult) :=
  fun _ _ => .error "simulated scheduler exception"

/-- C3 counterexample: a concrete wave through which a scheduler-level
exception escapes ends with terminal status FAILED, yet its `results` field
is not populated — `executeWave` assigns `results` only on the success path. -/
theorem waveFailed_results_unpopulated :
    (executeWave failingRunBatch (initMonitor 100000) sampleSingleWave).wave.status
      = .FAILED ∧
    (executeWave failingRunBatch (initMonitor 100000) sampleSingleWave).wave.results
      = none := by
  constructor
  · rfl
  · rfl

/-- C3 (amended): for every wave entering execution with `results` unset (as
every planner-produced wave does), after `executeWave` the `results` field is
populated iff the final status is COMPLETED.  The final status is always
terminal (COMPLETED or FAILED), but a FAILED wave's `results` stays
unpopulated, and CANCELLED is never assigned. -/
theorem waveResults_iff_completed
    (runBatch : GenerationWave → List AgentAssignment → Except String (List WaveResult))
    (cm : ContextMonitor) (wave : GenerationWave)
    (h : wave.results = none) :
    ((executeWave runBatch cm wave).wave.results ≠ none
      ↔ (executeWave runBatch cm wave).wave.status = .COMPLETED) ∧
    ((executeWave runBatch cm wave).wave.status = .COMPLETED ∨
      (executeWave runBatch cm wave).wave.status = .FAILED) := by
  cases hr : runBatches (runBatch { wave with status := .IN_PROGRESS, startTime := some () })
      (createAgentBatches wave.agentAssignments wave.maxConcurrency) with
  | ok results =>
    obtain ⟨-, h₂, h₃⟩ := executeWave_ok_parts runBatch cm wave results hr
    rw [h₂, h₃]
    simp
  | error e =>
    obtain ⟨-, h₂, h₃⟩ := executeWave_error_parts runBatch cm wave e hr
    rw [h₂, h₃, h]
    simp

/-- C3 witness: the amended property instantiated on the sample wave under
the normal batch step. -/
theorem waveResults_iff_completed_witness :
    sampleSingleWave.results = none ∧
    (((executeWave (fun w b => .ok (executeBatch sampleWorker w b))
          (initMonitor 100000) sampleSingleWave).wave.results ≠ none
        ↔ (executeWave (fun w b => .ok (executeBatch sampleWorker w b))
          (initMonitor 100000) sampleSingleWave).wave.status = .COMPLETED) ∧
      ((executeWave (fun w b => .ok (executeBatch sampleWorker w b))
          (initMonitor 100000) sampleSingleWave).wave.status = .COMPLETED ∨
        (executeWave (fun w b => .ok (executeBatch sampleWorker w b))
          (initMonitor 100000) sampleSingleWave).wave.status = .FAILED)) :=
  ⟨rfl, waveResults_iff_completed (fun w b => .ok (executeBatch sampleWorker w b))
    (initMonitor 100000) sampleSingleWave rfl⟩

/-- C7: on the normal path `executeWave` returns exactly one `WaveResult` per
assignment, the i-th being `executeAgent` of the i-th assignment (the map is
positional), and this in-order result list is precisely the concatenation of
the per-batch result lists in batch order with per-batch order matching
assignment order.  The hypothesis covers exactly the waves the planner
produces (a positive concurrency cap, or no assignments at all — with a
nonpositive cap and assignments present the source's batching loop does not
terminate). -/
theorem executeWave_results_match_assignments
    (worker : AgentAssignment → Except String WorkerOutput)
    (cm : ContextMonitor) (wave : GenerationWave)
    (h : 1 ≤ wave.maxConcurrency ∨ wave.agentAssignments = []) :
    (executeWave (fun w b => .ok (executeBatch worker w b)) cm wave).returned
      = .ok (wave.agentAssignments.map (executeAgent worker wave)) ∧
    ((createAgentBatches wave.agentAssignments wave.maxConcurrency).map
        (fun b => b.map (executeAgent worker wave))).flatten
      = wave.agentAssignments.map (executeAgent worker wave) ∧
    (wave.agentAssignments.map (executeAgent worker wave)).length
      = wave.agentAssignments.length := by
  refine ⟨(executeWave_normal_parts worker cm wave h).1, ?_, List.length_map _ _⟩
  rw [← List.map_flatten,
    createAgentBatches_flatten wave.agentAssignments wave.maxConcurrency h]

/-- C7 witness: instantiated on the one-assignment sample wave. -/
theorem executeWave_results_match_assignments_witness :
    (1 ≤ sampleSingleWave.maxConcurrency ∨ sampleSingleWave.agentAssignments = []) ∧
    ((executeWave (fun w b => .ok (executeBatch sampleWorker w b))
        (initMonitor 100000) sampleSingleWave).returned
      = .ok (sampleSingleWave.agentAssignments.map
          (executeAgent sampleWorker sampleSingleWave)) ∧
      ((createAgentBatches sampleSingleWave.agentAssignments
          sampleSingleWave.maxConcurrency).map
        (fun b => b.map (executeAgent sampleWorker sampleSingleWave))).flatten
        = sampleSingleWave.agentAssignments.map
            (executeAgent sampleWorker sampleSingleWave) ∧
      (sampleSingleWave.agentAssignments.map
          (executeAgent sampleWorker sampleSingleWave)).length
        = sampleSingleWave.agentAssignments.length) :=
  ⟨Or.inl (by decide),
    executeWave_results_match_assignments sampleWorker (initMonitor 100000)
      sampleSingleWave (Or.inl (by decide))⟩

/-- C9: with every worker failure absorbed by `executeAgent`, the wave always
reaches terminal status COMPLETED and stores one result per assignment
computed independently per assignment; an assignment whose worker call fails
gets `success := false` with an error message (never a thrown exception),
while every assignment whose worker call succeeds gets `success := true`
regardless of the other assignments' outcomes. -/
theorem assignment_failure_isolated
    (worker : AgentAssignment → Except String WorkerOutput)
    (cm : ContextMonitor) (wave : GenerationWave)
    (h : 1 ≤ wave.maxConcurrency ∨ wave.agentAssignments = []) :
    (executeWave (fun w b => .ok (executeBatch worker w b)) cm wave).wave.status
      = .COMPLETED ∧
    (executeWave (fun w b => .ok (executeBatch worker w b)) cm wave).wave.results
      = some (wave.agentAssignments.map (executeAgent worker wave)) ∧
    (∀ a ∈ wave.agentAssignments, ∀ e, worker a = .error e →
      (executeAgent worker wave a).success = false ∧
      (executeAgent worker wave a).errorMessage
        = some ("Agent execution failed: " ++ e)) ∧
    (∀ a ∈ wave.agentAssignments, ∀ o, worker a = .ok o →
      (executeAgent worker wave a).success = true) := by
  obtain ⟨-, h₂, h₃⟩ := executeWave_normal_parts worker cm wave h
  refine ⟨h₂, h₃, ?_, ?_⟩
  · intro a _ e hwa
    unfold executeAgent
    rw [hwa]
    exact ⟨rfl, rfl⟩
  · intro a _ o hwa
    unfold executeAgent
    rw [hwa]

/-- A two-assignment planned wave used to exhibit an isolated failure. -/
def samplePairWave : GenerationWave :=
  (planWave sampleSpec ⟨.BATCH, .num 2, some 5, none⟩ [] sampleLevel "out"
    "wave-2" 1 sampleAgentIds).waveConfiguration

/-- A worker that fails exactly on the sample wave's first agent. -/
def failingOnFirstWorker : AgentAssignment → Except String WorkerOutput :=
  fun a => if a.agentId = "agent_0" then .error "worker crashed" else .ok ⟨90, 95⟩

/-- C9 witness: on the two-assignment sample wave whose first worker call
fails, the theorem instantiates with the wave completing and the failure
isolated to the first assignment's result. -/
theorem assignment_failure_isolated_witness :
    (1 ≤ samplePairWave.maxConcurrency ∨ samplePairWave.agentAssignments = []) ∧
    ((executeWave (fun w b => .ok (executeBatch failingOnFirstWorker w b))
        (initMonitor 100000) samplePairWave).wave.status = .COMPLETED ∧
      (executeWave (fun w b => .ok (executeBatch failingOnFirstWorker w b))
        (initMonitor 100000) samplePairWave).wave.results
        = some (samplePairWave.agentAssignments.map
            (executeAgent failingOnFirstWorker samplePairWave)) ∧
      (∀ a ∈ samplePairWave.agentAssignments, ∀ e,
        failingOnFirstWorker a = .error e →
        (executeAgent failingOnFirstWorker samplePairWave a).success = false ∧
        (executeAgent failingOnFirstWorker samplePairWave a).errorMessage
          = some ("Agent execution failed: " ++ e)) ∧
      (∀ a ∈ samplePairWave.agentAssignments, ∀ o,
        failingOnFirstWorker a = .ok o →
        (executeAgent failingOnFirstWorker samplePairWave a).success = true)) :=
  ⟨Or.inl (by decide),
    assignment_failure_isolated failingOnFirstWorker (initMonitor 100000)
      samplePairWave (Or.inl (by decide))⟩

/-! Dimension-assignment lemmas. -/

theorem setAdd_nodup (s : List String) (x : String) (h : s.Nodup) :
    (setAdd s x).Nodup := by
  unfold setAdd
  split
  · exact h
  · next hx =>
    rw [List.nodup_append_comm]
    exact List.nodup_cons.mpr ⟨hx, h⟩

theorem foldl_setAdd_nodup (l : List String) (s : List String) (h : s.Nodup) :
    (l.foldl setAdd s).Nodup := by
  induction l generalizing s with
  | nil => exact h
  | cons x xs ih => exact ih (setAdd s x) (setAdd_nodup s x h)

theorem seedUsedDimensions_nodup (existing : List IterationInfo) :
    (seedUsedDimensions existing).Nodup := by
  unfold seedUsedDimensions
  have hgen : ∀ (l : List IterationInfo) (s : List String), s.Nodup →
      (l.foldl (fun s iter => iter.innovationDimensions.foldl setAdd s) s).Nodup := by
    intro l
    induction l with
    | nil => intro s hs; exact hs
    | cons it rest ih =>
      intro s hs
      exact ih _ (foldl_setAdd_nodup it.innovationDimensions s hs)
  exact hgen existing [] List.nodup_nil

theorem setAdd_eq_append (s : List String) (x : String) (hx : x ∉ s) :
    setAdd s x = s ++ [x] := by
  unfold setAdd
  rw [if_neg hx]

theorem jsIndex_mem (l : List String) (i : Nat) (h : l ≠ []) : jsIndex l i ∈ l := by
  unfold jsIndex
  have hlt : i % l.length < l.length := Nat.mod_lt _ (List.length_pos.mpr h)
  rw [List.get?_eq_get hlt]
  exact List.get_mem l (i % l.length) hlt

theorem nodup_subset_length (d u : List String) (hd : d.Nodup) (hsub : d ⊆ u) :
    d.length ≤ u.length := by
  have h₁ : d.toFinset.card = d.length := List.toFinset_card_of_nodup hd
  have h₂ : u.toFinset.card ≤ u.length := List.toFinset_card_le u
  have h₃ : d.toFinset ⊆ u.toFinset := by
    intro x hx
    simp only [List.mem_toFinset] at hx ⊢
    exact hsub hx
  have := Finset.card_le_card h₃
  omega

/-- Invariant of the assignment-generation loop: as long as the used set
(a duplicate-free list) stays strictly smaller than the (duplicate-free)
dimension pool throughout — guaranteed by
`used.length + remaining ≤ pool.length` — the exhaustion fallback never
fires, every pick is fresh, and the generated focuses are pairwise distinct
and disjoint from the incoming used set. -/
theorem genAux_focuses_fresh (spec : UniversalSpecification)
    (existing : List IterationInfo) (sl : SophisticationLevel)
    (agentIds : Nat → String) (hnd : spec.innovationDimensions.Nodup) :
    ∀ (remaining i : Nat) (used : List String), used.Nodup →
      used.length + remaining ≤ spec.innovationDimensions.length →
      ((generateAssignmentsAux spec existing sl agentIds i remaining used).map
          (fun a => a.uniqueDirective.innovationFocus)).Nodup ∧
      ∀ f ∈ (generateAssignmentsAux spec existing sl agentIds i remaining used).map
          (fun a => a.uniqueDirective.innovationFocus), f ∉ used
  | 0, i, used, _, _ => by
    constructor
    · exact List.nodup_nil
    · intro f hf
      simp [generateAssignmentsAux] at hf
  | r + 1, i, used, hu, hlen => by
    have hfall : used.length < spec.innovationDimensions.length := by omega
    have havail : spec.innovationDimensions.filter
          (fun dim => decide (dim ∉ used) ||
            decide (spec.innovationDimensions.length ≤ used.length))
        = spec.innovationDimensions.filter (fun dim => decide (dim ∉ used)) := by
      apply List.filter_congr
      intro d _
      have : decide (spec.innovationDimensions.length ≤ used.length) = false := by
        simp; omega
      rw [this, Bool.or_false]
    have hne : spec.innovationDimensions.filter (fun dim => decide (dim ∉ used)) ≠ [] := by
      intro hempty
      have hsub : spec.innovationDimensions ⊆ used := by
        intro d hd
        by_contra hdu
        have hmem : d ∈ spec.innovationDimensions.filter
            (fun dim => decide (dim ∉ used)) := by
          rw [List.mem_filter]
          exact ⟨hd, by simpa using hdu⟩
        rw [hempty] at hmem
        exact absurd hmem (List.not_mem_nil d)
      have := nodup_subset_length spec.innovationDimensions used hnd hsub
      omega
    have hmemA : jsIndex (spec.innovationDimensions.filter
          (fun dim => decide (dim ∉ used))) i
        ∈ spec.innovationDimensions.filter (fun dim => decide (dim ∉ used)) :=
      jsIndex_mem _ i hne
    rw [List.mem_filter] at hmemA
    have hfocus_notmem :
        jsIndex (spec.innovationDimensions.filter
          (fun dim => decide (dim ∉ used))) i ∉ used := by
      simpa using hmemA.2
    have hused₁ : setAdd used (jsIndex (spec.innovationDimensions.filter
          (fun dim => decide (dim ∉ used))) i)
        = used ++ [jsIndex (spec.innovationDimensions.filter
          (fun dim => decide (dim ∉ used))) i] :=
      setAdd_eq_append used _ hfocus_notmem
    have hnodup₁ : (used ++ [jsIndex (spec.innovationDimensions.filter
          (fun dim => decide (dim ∉ used))) i]).Nodup := by
      rw [List.nodup_append_comm]
      exact List.nodup_cons.mpr ⟨hfocus_notmem, hu⟩
    have hlen₁ : (used ++ [jsIndex (spec.innovationDimensions.filter
          (fun dim => decide (dim ∉ used))) i]).length + r
        ≤ spec.innovationDimensions.length := by
      simp only [List.length_append, List.length_cons, List.length_nil]
      omega
    have ih := genAux_focuses_fresh spec existing sl agentIds hnd r (i + 1)
      (used ++ [jsIndex (spec.innovationDimensions.filter
        (fun dim => decide (dim ∉ used))) i]) hnodup₁ hlen₁
    simp only [generateAssignmentsAux, List.map_cons]
    rw [havail, hused₁]
    constructor
    · rw [List.nodup_cons]
      refine ⟨fun hmem => ?_, ih.1⟩
      have := ih.2 _ hmem
      exact this (List.mem_append_right used (List.mem_singleton.mpr rfl))
    · intro f hf
      rcases List.mem_cons.mp hf with hf | hf
      · rw [hf]; exact hfocus_notmem
      · intro hfu
        exact (ih.2 f hf) (List.mem_append_left _ hfu)

/-- C4 counterexample: with the dimension pool `[a, b]` (size 2) and a
history that already used dimension `a`, a planned wave of size 2 (pool size
≥ wave size) assigns focus `b` to **both** assignments: the first pick marks
`b` used, the pool is then exhausted, and the fallback reuses the full list
within the same wave. -/
theorem innovationFocus_collision :
    (planWave sampleSpec ⟨.BATCH, .num 3, some 5, none⟩ [sampleIteration]
        sampleLevel "out" "w4" 1 sampleAgentIds).waveConfiguration.targetIterations
      ≤ sampleSpec.innovationDimensions.length ∧
    waveFocuses (planWave sampleSpec ⟨.BATCH, .num 3, some 5, none⟩
      [sampleIteration] sampleLevel "out" "w4" 1 sampleAgentIds) = ["b", "b"] ∧
    ¬ (waveFocuses (planWave sampleSpec ⟨.BATCH, .num 3, some 5, none⟩
      [sampleIteration] sampleLevel "out" "w4" 1 sampleAgentIds)).Nodup := by
  refine ⟨by decide, by decide, by decide⟩

/-- C4 (amended): the assignments of one wave carry pairwise-distinct
`uniqueDirective.innovationFocus` values whenever the spec's (duplicate-free)
innovation-dimension pool is at least as large as the wave size **plus the
number of distinct dimensions already used by the existing iterations** —
the condition under which the pool cannot be exhausted mid-wave.  (With no
history this reduces to the claim's `pool size ≥ wave size`.) -/
theorem innovationFocus_distinct (spec : UniversalSpecification)
    (existing : List IterationInfo) (sl : SophisticationLevel)
    (agentIds : Nat → String) (waveSize : Int)
    (hnd : spec.innovationDimensions.Nodup)
    (hsize : (seedUsedDimensions existing).length + waveSize.toNat
      ≤ spec.innovationDimensions.length) :
    ((generateAgentAssignments spec waveSize existing sl agentIds).map
      (fun a => a.uniqueDirective.innovationFocus)).Nodup := by
  unfold generateAgentAssignments
  exact (genAux_focuses_fresh spec existing sl agentIds hnd waveSize.toNat 0
    (seedUsedDimensions existing) (seedUsedDimensions_nodup existing) hsize).1

/-- C4 witness: a fresh two-assignment wave over the two-dimension pool
(no history) gets both dimensions, pairwise distinct. -/
theorem innovationFocus_distinct_witness :
    sampleSpec.innovationDimensions.Nodup ∧
    (seedUsedDimensions []).length + (2 : Int).toNat
      ≤ sampleSpec.innovationDimensions.length ∧
    ((generateAgentAssignments sampleSpec 2 [] sampleLevel sampleAgentIds).map
      (fun a => a.uniqueDirective.innovationFocus)).Nodup :=
  ⟨by decide, by decide,
    innovationFocus_distinct sampleSpec [] sampleLevel sampleAgentIds 2
      (by decide) (by decide)⟩

end WaveManagerModel
